import Mathlib

/-!
# Verification of the go-xmapper struct mapping engine

A shallow embedding of `main.go` of dev3mike/go-xmapper: a tag-driven
struct-to-struct mapper with per-field validator and transformer pipelines
and a fixed priority order of type coercions.

Modelling conventions:
* Go values reachable through `reflect` are modelled by the inductive `GoVal`.
  A nil pointer carries a prototype value standing for its pointee type
  (`reflect.New` on that type yields `zeroLike` of the prototype); a slice
  carries a prototype for its element type for the same reason.
* A struct field is a `Fld`: the three tag strings (the resolved values of
  `Tag.Get "json"`, `Tag.Get "validator"`, `Tag.Get "transformer"`) plus the
  field value.  All fields are modelled as exported (`CanSet` true), as in
  every use of the library's public API.
* The process-wide registries are passed as explicit association lists; a
  mapping call never mutates them, so capturing a registered function in a
  closure at parse time (as the Go code does) and looking it up by name are
  indistinguishable; parsed entries carry both the name and the function.
* The engine additionally produces a trace of validator/transformer
  invocations (`Ev`), ghost instrumentation used to state ordering claims;
  it changes no data flow.
* General recursion of the Go engine (nested structs / slices) is broken by
  a fuel parameter that decreases exactly once per nesting level;
  `MapStructs` passes `goDepth src + 1`, which over-approximates the depth
  the recursion can reach, so the out-of-fuel branch is never taken from the
  public entry point.
* `encoding/json` is an external collaborator; it is modelled on the shapes
  the mapped claims exercise (strings and string sequences without escaped
  characters).  Unsupported shapes decode/encode to `none`, surfaced as an
  error; no claim depends on those branches.
* Go string positions are bytes; the model uses characters.  All scanned
  markers and separators are ASCII, where the two coincide.
-/

/-- The apostrophe character (U+0027), built numerically. -/
def squoChar : Char := Char.ofNat 39

/-- The double-quote character (U+0022), built numerically. -/
def dquoChar : Char := Char.ofNat 34

/-- The backslash character (U+005C), built numerically. -/
def bslashChar : Char := Char.ofNat 92

/-- The apostrophe as a one-character string (used by Go's error messages). -/
def squo : String := ⟨[squoChar]⟩

/-- Characters accepted by Go's `unicode.IsSpace` within Latin-1. -/
def isGoSpace (c : Char) : Bool :=
  c = ' ' || c = '\t' || c = '\n' || c.toNat = 11 || c.toNat = 12 || c = '\r' ||
  c.toNat = 0x85 || c.toNat = 0xA0

/-- Models `strings.Split` with a one-character separator, on char lists:
always returns at least one (possibly empty) piece. -/
def splitOnCharList (c : Char) : List Char → List (List Char)
  | [] => [[]]
  | d :: rest =>
    match splitOnCharList c rest with
    | [] => [[]]
    | g :: gs => if d = c then [] :: g :: gs else (d :: g) :: gs

/-- Models `strings.Split(s, sep)` for a one-character separator. -/
def goSplit (s : String) (c : Char) : List String :=
  (splitOnCharList c s.data).map (fun l => ⟨l⟩)

/-- Models `strings.TrimSpace`. -/
def goTrim (s : String) : String :=
  ⟨((s.data.dropWhile isGoSpace).reverse.dropWhile isGoSpace).reverse⟩

/-- Models `strings.SplitN(s, ":", 2)`: the part before the first colon, and
the remainder after it when a colon exists. -/
def splitFirstColon : List Char → List Char × Option (List Char)
  | [] => ([], none)
  | c :: rest =>
    if c = ':' then ([], some rest)
    else
      let (a, b) := splitFirstColon rest
      (c :: a, b)

/-- First position at which `sub` occurs in `s`, if any. -/
def strIndexNat (s sub : String) : Option Nat :=
  (List.range (s.data.length + 1)).find? (fun i => sub.data.isPrefixOf (s.data.drop i))

/-- Models `strings.Index`: first occurrence or `-1`. -/
def strIndex (s sub : String) : Int :=
  match strIndexNat s sub with
  | some n => (n : Int)
  | none => -1

/-- Models the Go slice expression `s[lo:hi]`: `none` is the bounds panic. -/
def goSliceStr (s : String) (lo hi : Int) : Option String :=
  if 0 ≤ lo ∧ lo ≤ hi ∧ hi ≤ (s.data.length : Int) then
    some ⟨(s.data.take hi.toNat).drop lo.toNat⟩
  else none

/-- Models the Go slice expression `s[n:]` for `n` within bounds. -/
def goDropStr (s : String) (n : Nat) : String := ⟨s.data.drop n⟩

mutual
/-- A Go value as seen through `reflect` by the mapper: strings, ints, bools,
pointers (nil pointers carry a prototype of the pointee type), structs and
slices (carrying a prototype of the element type). -/
inductive GoVal where
  | str (s : String)
  | intV (n : Int)
  | boolV (b : Bool)
  | nilPtr (proto : GoVal)
  | ptr (v : GoVal)
  | structV (fields : List Fld)
  | sliceV (proto : GoVal) (elems : List GoVal)
/-- A struct field: the `json`, `validator` and `transformer` tag values
plus the field's current value. -/
inductive Fld where
  | mk (jsonTag validatorTag transformerTag : String) (value : GoVal)
end

def Fld.jsonTag : Fld → String
  | .mk t _ _ _ => t

def Fld.validatorTag : Fld → String
  | .mk _ t _ _ => t

def Fld.transformerTag : Fld → String
  | .mk _ _ t _ => t

def Fld.value : Fld → GoVal
  | .mk _ _ _ v => v

/-- The `reflect.Kind`s distinguished by the engine. -/
inductive GoKind where
  | str | int | bool | ptr | struct | slice
  deriving DecidableEq, Repr

def kindOf : GoVal → GoKind
  | .str _ => .str
  | .intV _ => .int
  | .boolV _ => .bool
  | .nilPtr _ => .ptr
  | .ptr _ => .ptr
  | .structV _ => .struct
  | .sliceV _ _ => .slice

mutual
/-- Models `reflect.Zero` of the type of the given value (the zero value of a
pointer type is a nil pointer to the same pointee type). -/
def zeroLike : GoVal → GoVal
  | .str _ => .str ""
  | .intV _ => .intV 0
  | .boolV _ => .boolV false
  | .nilPtr p => .nilPtr p
  | .ptr v => .nilPtr v
  | .structV fs => .structV (zeroLikeFields fs)
  | .sliceV p _ => .sliceV p []
def zeroLikeFields : List Fld → List Fld
  | [] => []
  | .mk a b c v :: rest => .mk a b c (zeroLike v) :: zeroLikeFields rest
end

mutual
/-- Constructor nesting depth of a value; used to choose a sufficient fuel
for the engine's recursion. -/
def goDepth : GoVal → Nat
  | .str _ => 1
  | .intV _ => 1
  | .boolV _ => 1
  | .nilPtr p => 1 + goDepth p
  | .ptr v => 1 + goDepth v
  | .structV fs => 2 + goDepthFields fs
  | .sliceV p es => 2 + Nat.max (goDepth p) (goDepthElems es)
def goDepthFields : List Fld → Nat
  | [] => 0
  | .mk _ _ _ v :: rest => Nat.max (goDepth v) (goDepthFields rest)
def goDepthElems : List GoVal → Nat
  | [] => 0
  | e :: rest => Nat.max (goDepth e) (goDepthElems rest)
end

/-- Trace events: a validator ran (with its parsed argument, against the
given value), or a transformer ran (on the given input). -/
inductive Ev where
  | validate (field vname arg : String) (value : GoVal)
  | transform (field tname : String) (input : GoVal)

/-- The `TransformerFunc` type of main.go. -/
abbrev TransformerFunc := GoVal → GoVal

/-- The `ValidatorFunc` type of main.go: `none` is success, `some msg` a failure. -/
abbrev ValidatorFunc := GoVal → String → Option String

/-- The `transformerRegistry` map, passed explicitly. -/
abbrev TransformerRegistry := List (String × TransformerFunc)

/-- The `validatorRegistry` map, passed explicitly. -/
abbrev ValidatorRegistry := List (String × ValidatorFunc)

/-- A parsed transformer tag entry: the trimmed name and the registered
function it resolved to. -/
abbrev TEntry := String × TransformerFunc

/-- A parsed validator tag entry: trimmed name, parsed argument, and the
registered function it resolved to. -/
structure VEntry where
  name : String
  arg : String
  fn : ValidatorFunc

/-! ## JSON codec model (external collaborator `encoding/json`) -/

def jsonIsWs (c : Char) : Bool :=
  c = ' ' || c = '\t' || c = '\n' || c = '\r'

def skipWs (cs : List Char) : List Char := cs.dropWhile jsonIsWs

/-- Parse the body of a JSON string literal (after the opening quote) up to
its closing quote.  Escape sequences and control characters are outside the
modelled fragment and yield `none`. -/
def parseJStrBody : List Char → Option (String × List Char)
  | [] => none
  | c :: rest =>
    if c = dquoChar then some ("", rest)
    else if c = bslashChar || c.toNat < 0x20 then none
    else
      match parseJStrBody rest with
      | some (s, r) => some (⟨c :: s.data⟩, r)
      | none => none

/-- Parse a JSON string literal starting at the opening quote. -/
def parseJStr : List Char → Option (String × List Char)
  | c :: rest => if c = dquoChar then parseJStrBody rest else none
  | [] => none

/-- Parse one or more comma-separated JSON string literals (fuelled by the
input length). -/
def parseJStrElems (fuel : Nat) (cs : List Char) : Option (List String × List Char) :=
  match fuel with
  | 0 => none
  | fuel + 1 =>
    match parseJStr cs with
    | none => none
    | some (s, r) =>
      match skipWs r with
      | c :: r2 =>
        if c = ',' then
          match parseJStrElems fuel (skipWs r2) with
          | some (l, r3) => some (s :: l, r3)
          | none => none
        else some ([s], c :: r2)
      | [] => some ([s], [])

/-- Models `json.Unmarshal` of a JSON array of strings into `[]string`. -/
def jsonDecodeStrList (s : String) : Option (List String) :=
  match skipWs s.data with
  | c :: r =>
    if c = '[' then
      match skipWs r with
      | d :: r2 =>
        if d = ']' then if (skipWs r2).isEmpty then some [] else none
        else
          match parseJStrElems (s.data.length + 1) (d :: r2) with
          | some (l, rest) =>
            match skipWs rest with
            | e :: r3 => if e = ']' ∧ (skipWs r3).isEmpty then some l else none
            | [] => none
          | none => none
      | [] => none
    else none
  | [] => none

def jsonQuote (s : String) : List Char := dquoChar :: s.data ++ [dquoChar]

def jsonEncodeElems : List String → List Char
  | [] => []
  | [s] => jsonQuote s
  | s :: rest => jsonQuote s ++ ',' :: jsonEncodeElems rest

/-- Models `json.Marshal` of a `[]string` (compact form, no escaping: the
encoder agrees with `encoding/json` exactly on `jsonSafe` strings). -/
def jsonEncodeStrList (l : List String) : String :=
  ⟨'[' :: jsonEncodeElems l ++ [']']⟩

/-- Characters `encoding/json` emits verbatim inside a string literal
(printable ASCII minus the quote, backslash and HTML-escaped characters);
on strings of such characters the codec model is exact. -/
def jsonSafeChar (c : Char) : Bool :=
  0x20 ≤ c.toNat && c.toNat < 0x7f &&
  c ≠ dquoChar && c ≠ bslashChar && c ≠ '<' && c ≠ '>' && c ≠ '&'

def jsonSafe (s : String) : Bool := s.data.all jsonSafeChar

def getStr : GoVal → String
  | .str s => s
  | _ => ""

/-- Models `json.Unmarshal(bytes, sliceValue)` (line 309): fully modelled for
`[]string`; for other element types only the empty array is modelled. -/
def jsonUnmarshalSlice (proto : GoVal) (s : String) : Option (List GoVal) :=
  match kindOf proto with
  | .str => (jsonDecodeStrList s).map (fun l => l.map GoVal.str)
  | _ => if s = "[]" then some [] else none

/-- Models `json.Unmarshal(bytes, structValue)` (line 283): only the empty
object (produced by the empty-source-string rule) is modelled; decoding it
leaves the freshly allocated zero struct. -/
def jsonUnmarshalStruct (destFields : List Fld) (s : String) : Option (List Fld) :=
  if s = "\x7b\x7d" then some (zeroLikeFields destFields) else none

/-- Models `json.Marshal` of a slice (line 318): modelled for `[]string`. -/
def jsonMarshalSlice (elems : List GoVal) : Option String :=
  if elems.all (fun e => kindOf e = GoKind.str) then
    some (jsonEncodeStrList (elems.map getStr))
  else none

/-- Models `json.Marshal` of a struct (line 292): outside the modelled
fragment (no claim exercises struct-to-text coercion). -/
def jsonMarshalStruct (_fields : List Fld) : Option String := none

/-! ## Tag parsing and pipeline construction (lines 188-230, 357-398) -/

/-- Models `getFieldName` (line 189): first comma-separated part of the tag, empty
for an absent or skip (`-`) tag.  The model's `Fld` stores the resolved
`Tag.Get` results, so the function takes the tag value directly. -/
def getFieldName (tag : String) : String :=
  if tag = "" ∨ tag = "-" then "" else (goSplit tag ',').headD ""

/-- Loop of `parseTransformers` (lines 221-228). -/
def parseTransformersList (treg : TransformerRegistry) :
    List String → Except String (List TEntry)
  | [] => .ok []
  | n :: rest =>
    let name := goTrim n
    match treg.lookup name with
    | some f =>
      match parseTransformersList treg rest with
      | .ok l => .ok ((name, f) :: l)
      | .error e => .error e
    | none => .error ("transformer " ++ squo ++ name ++ squo ++ " not found")

/-- Models `parseTransformers` (line 218). -/
def parseTransformers (treg : TransformerRegistry) (names : String) :
    Except String (List TEntry) :=
  parseTransformersList treg (goSplit names ',')

/-- Loop of `parseFieldValidators` (lines 379-396). -/
def parseFieldValidatorsList (vreg : ValidatorRegistry) :
    List String → Except String (List VEntry)
  | [] => .ok []
  | entry :: rest =>
    let (p0, p1opt) := splitFirstColon entry.data
    let validatorName := goTrim ⟨p0⟩
    let arg := match p1opt with
      | some p1 => goTrim ⟨p1⟩
      | none => ""
    match vreg.lookup validatorName with
    | none => .error ("validator " ++ squo ++ validatorName ++ squo ++ " not found")
    | some f =>
      match parseFieldValidatorsList vreg rest with
      | .ok l => .ok (⟨validatorName, arg, f⟩ :: l)
      | .error e => .error e

/-- Models `parseFieldValidators` (line 376). -/
def parseFieldValidators (vreg : ValidatorRegistry) (validatorSpec : String) :
    Except String (List VEntry) :=
  parseFieldValidatorsList vreg (goSplit validatorSpec ',')

/-- Per-field transformer pipelines keyed by json name (a Go map: a later
duplicate key overwrites, realised by prepending and first-match lookup). -/
abbrev TMap := List (String × List TEntry)

/-- Per-field validator pipelines keyed by json name. -/
abbrev VMap := List (String × List VEntry)

/-- Loop of `findTransformers` (lines 199-213). -/
def findTransformersAux (treg : TransformerRegistry) (acc : TMap) :
    List Fld → Except String TMap
  | [] => .ok acc
  | f :: rest =>
    if f.transformerTag ≠ "" then
      match parseTransformers treg f.transformerTag with
      | .error e => .error e
      | .ok l => findTransformersAux treg ((getFieldName f.jsonTag, l) :: acc) rest
    else findTransformersAux treg acc rest

/-- Models `findTransformers` (line 199). -/
def findTransformers (treg : TransformerRegistry) (fields : List Fld) :
    Except String TMap :=
  findTransformersAux treg [] fields

/-- Loop of `findValidators` (lines 357-373). -/
def findValidatorsAux (vreg : ValidatorRegistry) (acc : VMap) :
    List Fld → Except String VMap
  | [] => .ok acc
  | f :: rest =>
    if f.validatorTag = "" then findValidatorsAux vreg acc rest
    else
      let jsonName := getFieldName f.jsonTag
      match parseFieldValidators vreg f.validatorTag with
      | .error e =>
        .error ("error parsing validators for field " ++ squo ++ jsonName ++ squo ++ ": " ++ e)
      | .ok l => findValidatorsAux vreg ((jsonName, l) :: acc) rest

/-- Models `findValidators` (line 357). -/
def findValidators (vreg : ValidatorRegistry) (fields : List Fld) :
    Except String VMap :=
  findValidatorsAux vreg [] fields

/-- Loop of `buildDestinationFieldMap` (lines 176-186), mapping each json
name to the index of the (last) field carrying it. -/
def buildDestinationFieldMapAux (i : Nat) (acc : List (String × Nat)) :
    List Fld → List (String × Nat)
  | [] => acc
  | f :: rest =>
    let n := getFieldName f.jsonTag
    buildDestinationFieldMapAux (i + 1) (if n ≠ "" then (n, i) :: acc else acc) rest

/-- Models `buildDestinationFieldMap` (line 176). -/
def buildDestinationFieldMap (fields : List Fld) : List (String × Nat) :=
  buildDestinationFieldMapAux 0 [] fields

/-! ## Pipeline execution -/

/-- The validator loop of `mapStructsRecursive` (lines 151-157): run each
parsed validator in order against the untransformed source value, stopping
at the first failure. -/
def runValidators (fieldName : String) (v : GoVal) :
    List VEntry → Option String × List Ev
  | [] => (none, [])
  | e :: rest =>
    let ev := Ev.validate fieldName e.name e.arg v
    match e.fn v e.arg with
    | some cause => (some cause, [ev])
    | none =>
      let (r, tr) := runValidators fieldName v rest
      (r, ev :: tr)

/-- The transformer loop of `setFieldValue` (lines 348-350): thread the value
through the chain in order. -/
def applyTransformers (fieldName : String) :
    List TEntry → GoVal → GoVal × List Ev
  | [], v => (v, [])
  | (tn, f) :: rest, v =>
    let (r, tr) := applyTransformers fieldName rest (f v)
    (r, Ev.transform fieldName tn v :: tr)

/-- Result of `setFieldValue`: error, the destination slot's new value, and
the invocation trace. -/
structure SetRes where
  err : Option String
  val : GoVal
  trace : List Ev

/-- Result of `mapStructsRecursive`: error, the destination fields after the
call (partial writes kept on error, as in Go), and the trace. -/
structure MapRes where
  err : Option String
  dest : List Fld
  trace : List Ev

def defaultFld : Fld := .mk "" "" "" (.str "")

/-- Replace the value stored at destination index `i` (the write through the
`reflect` handle `destMap[fieldName]`). -/
def setAt (dest : List Fld) (i : Nat) (v : GoVal) : List Fld :=
  match dest[i]? with
  | some f => dest.set i (.mk f.jsonTag f.validatorTag f.transformerTag v)
  | none => dest

/-- The per-field loop of `mapStructsRecursive` (lines 143-165), abstracted
over the field-setter `sfv` (which carries the recursion fuel); `sfv` takes
the field name (ghost, for the trace), source value, current destination
value and transformer chain. -/
def processFieldsGen (sfv : String → GoVal → GoVal → List TEntry → SetRes)
    (T : TMap) (V : VMap) (dmap : List (String × Nat)) :
    List Fld → List Fld → MapRes
  | [], dest => ⟨none, dest, []⟩
  | f :: rest, dest =>
    let fieldName := getFieldName f.jsonTag
    if fieldName = "" then processFieldsGen sfv T V dmap rest dest
    else
      let vres :=
        match V.lookup fieldName with
        | some ents => runValidators fieldName f.value ents
        | none => (none, [])
      match vres.1 with
      | some cause =>
        ⟨some ("validation failed for field " ++ squo ++ fieldName ++ squo ++ ": " ++ cause),
         dest, vres.2⟩
      | none =>
        match dmap.lookup fieldName with
        | none =>
          let r := processFieldsGen sfv T V dmap rest dest
          ⟨r.err, r.dest, vres.2 ++ r.trace⟩
        | some i =>
          let cur := dest[i]?.getD defaultFld
          let s := sfv fieldName f.value cur.value ((T.lookup fieldName).getD [])
          let dest' := setAt dest i s.val
          match s.err with
          | some e => ⟨some e, dest', vres.2 ++ s.trace⟩
          | none =>
            let r := processFieldsGen sfv T V dmap rest dest'
            ⟨r.err, r.dest, vres.2 ++ s.trace ++ r.trace⟩

/-- Models `mapStructsRecursive` (lines 126-167) abstracted over the field-setter:
build the destination index and both pipelines (failing before any field is
processed), then run the per-field loop. -/
def mapStructsRecursiveGen (sfv : String → GoVal → GoVal → List TEntry → SetRes)
    (treg : TransformerRegistry) (vreg : ValidatorRegistry)
    (srcFields destFields : List Fld) : MapRes :=
  let dmap := buildDestinationFieldMap destFields
  match findTransformers treg srcFields with
  | .error e => ⟨some e, destFields, []⟩
  | .ok T =>
    match findValidators vreg srcFields with
    | .error e => ⟨some e, destFields, []⟩
    | .ok V => processFieldsGen sfv T V dmap srcFields destFields

/-- The element loop of the slice-to-slice rule (lines 256-268): each source
element is coerced into a fresh zero of the destination element type; an
element error aborts before the destination slice is written. -/
def mapSliceElemsGen (sfv : String → GoVal → GoVal → List TEntry → SetRes)
    (fieldName : String) (destProto : GoVal) (trs : List TEntry) :
    List GoVal → Option String × List GoVal × List Ev
  | [] => (none, [], [])
  | e :: rest =>
    let r := sfv fieldName e (zeroLike destProto) trs
    match r.err with
    | some er => (some er, [], r.trace)
    | none =>
      let (er2, vs, tr2) := mapSliceElemsGen sfv fieldName destProto trs rest
      (er2, r.val :: vs, r.trace ++ tr2)

/-- The body of `setFieldValue` after the pointer handling (lines 250-352),
abstracted over the recursive field-setter.  The alternatives mirror the
source's if-chain in order; its two final string/string-slice branches
(lines 326-344) are unreachable, being subsumed by the JSON branches
(lines 301, 317), which the match order makes literal here. -/
def setFieldValueCoreGen (sfv : String → GoVal → GoVal → List TEntry → SetRes)
    (treg : TransformerRegistry) (vreg : ValidatorRegistry)
    (fieldName : String) (src dest : GoVal) (transformers : List TEntry) : SetRes :=
  match src, dest with
  -- line 250: struct → struct, recurse through the orchestrator
  | .structV sfs, .structV dfs =>
    let r := mapStructsRecursiveGen sfv treg vreg sfs dfs
    ⟨r.err, .structV r.dest, r.trace⟩
  -- line 254: slice → slice, element-wise
  | .sliceV _ ses, .sliceV dp des =>
    match mapSliceElemsGen sfv fieldName dp transformers ses with
    | (some e, _, tr) => ⟨some e, .sliceV dp des, tr⟩
    | (none, elems, tr) => ⟨none, .sliceV dp elems, tr⟩
  -- line 275: JSON string → struct ("" treated as "{}")
  | .str s, .structV dfs =>
    let jsonStr := if s.length = 0 then "\x7b\x7d" else s
    match jsonUnmarshalStruct dfs jsonStr with
    | some fs => ⟨none, .structV fs, []⟩
    | none => ⟨some ("json: cannot unmarshal " ++ jsonStr), .structV dfs, []⟩
  -- line 291: struct → JSON string
  | .structV sfs, .str d =>
    match jsonMarshalStruct sfs with
    | some out => ⟨none, .str out, []⟩
    | none => ⟨some "json: marshal unsupported in model", .str d, []⟩
  -- line 301: JSON string → slice ("" treated as "[]")
  | .str s, .sliceV dp des =>
    let jsonStr := if s.length = 0 then "[]" else s
    match jsonUnmarshalSlice dp jsonStr with
    | some elems => ⟨none, .sliceV dp elems, []⟩
    | none => ⟨some ("json: cannot unmarshal " ++ jsonStr), .sliceV dp des, []⟩
  -- line 317: slice → JSON string
  | .sliceV _ ses, .str d =>
    match jsonMarshalSlice ses with
    | some out => ⟨none, .str out, []⟩
    | none => ⟨some "json: marshal unsupported in model", .str d, []⟩
  -- line 327: string → []string by comma-split (unreachable: line 301 fires first)
  -- line 339: []string → string by comma-join (unreachable: line 317 fires first)
  -- line 347: fallback, apply transformers and assign (reflect.Set panics on
  -- a type mismatch; modelled as an error, distinguished only at kind level)
  | s, d =>
    let (v, tr) := applyTransformers fieldName transformers s
    if kindOf v = kindOf d then ⟨none, v, tr⟩
    else ⟨some "reflect.Set: value of wrong type", d, tr⟩

/-- Models `setFieldValue` (lines 232-353), fuelled: the pointer preamble
(lines 233-248) then the coercion rules.  One fuel unit is spent per nesting
level; `MapStructs` passes a depth bound so fuel never runs out. -/
def setFieldValueF (treg : TransformerRegistry) (vreg : ValidatorRegistry) :
    Nat → String → GoVal → GoVal → List TEntry → SetRes
  | 0, _, _, destField, _ => ⟨some "model: recursion fuel exhausted", destField, []⟩
  | fuel + 1, fieldName, srcField, destField, transformers =>
    match srcField with
    -- line 235: nil source pointer, zero the destination and stop
    | .nilPtr _ => ⟨none, zeroLike destField, []⟩
    | _ =>
      -- line 240: unwrap a non-nil source pointer
      let src := match srcField with
        | .ptr v => v
        | s => s
      match destField with
      -- line 243: allocate a nil destination pointer, then write its pointee
      | .nilPtr proto =>
        let r := setFieldValueCoreGen (setFieldValueF treg vreg fuel) treg vreg
          fieldName src (zeroLike proto) transformers
        ⟨r.err, .ptr r.val, r.trace⟩
      -- line 247: write through a non-nil destination pointer
      | .ptr w =>
        let r := setFieldValueCoreGen (setFieldValueF treg vreg fuel) treg vreg
          fieldName src w transformers
        ⟨r.err, .ptr r.val, r.trace⟩
      | d => setFieldValueCoreGen (setFieldValueF treg vreg fuel) treg vreg
          fieldName src d transformers

/-- Models `mapStructsRecursive` (line 126) at a given fuel. -/
def mapStructsRecursiveF (treg : TransformerRegistry) (vreg : ValidatorRegistry)
    (fuel : Nat) (srcFields destFields : List Fld) : MapRes :=
  mapStructsRecursiveGen (setFieldValueF treg vreg fuel) treg vreg srcFields destFields

/-- Models `isValidStructPointer` (line 171): a non-nil pointer to a struct (the
`Elem` of a nil pointer has `Invalid` kind in Go, never `Struct`). -/
def isValidStructPointer : GoVal → Bool
  | .ptr (.structV _) => true
  | _ => false

def elemFields : GoVal → List Fld
  | .ptr (.structV fs) => fs
  | _ => []

/-- Models `MapStructs` (lines 62-69): precondition check, then the recursive
mapper.  Returns the error, the destination value after the call, and the
trace. -/
def MapStructs (treg : TransformerRegistry) (vreg : ValidatorRegistry)
    (src dest : GoVal) : Option String × GoVal × List Ev :=
  if isValidStructPointer src && isValidStructPointer dest then
    let r := mapStructsRecursiveF treg vreg (goDepth src + 1) (elemFields src) (elemFields dest)
    (r.err, .ptr (.structV r.dest), r.trace)
  else (some "both source and destination must be pointer to a struct", dest, [])

/-! ## The single-value helper (lines 88-123, 400-421) -/

/-- The marker scanned for by the spec parser, "validators:" plus a quote. -/
def validatorsMarker : String := "validators:" ++ squo

/-- The marker scanned for by the spec parser, «transformers:» plus a quote. -/
def transformersMarker : String := "transformers:" ++ squo

/-- Models `parseSingleFieldValidatorAndTransformerSpec` (lines 400-421), with Go's
literal index arithmetic: the marker lengths 12 and 14, and the misspelled
`len("validator:")+1 = 11` offsets of the original.  `none` models the
slice-bounds panic of `input[lo:hi]` with `lo > hi`.  The transformers half
(lines 413-418) is `parseSpecTransPart`; it is pure, so computing
`transStart` there rather than up front is observationally identical to the
Go order. -/
def parseSpecTransPart (input validators : String) : Option (String × String) :=
  let transStart := strIndex input transformersMarker
  if transStart ≠ -1 then
    -- transEnd := Index(input[transStart+14:], quote) + transStart + 14
    let transEnd := strIndex (goDropStr input (transStart + 14).toNat) squo + transStart + 14
    if transEnd ≠ -1 then
      -- transformers = input[transStart+14 : transEnd]
      match goSliceStr input (transStart + 14) transEnd with
      | none => none
      | some transformers => some (validators, transformers)
    else some (validators, "")
  else some (validators, "")

def parseSingleFieldValidatorAndTransformerSpec (input : String) :
    Option (String × String) :=
  let valStart := strIndex input validatorsMarker
  let step1 : Option String :=
    if valStart ≠ -1 then
      -- valEnd := Index(input[valStart+12:], quote) + valStart + 11
      let valEnd := strIndex (goDropStr input (valStart + 12).toNat) squo + valStart + 11
      if valEnd ≠ -1 then
        -- validators = input[valStart+11+1 : valEnd+1]
        goSliceStr input (valStart + 12) (valEnd + 1)
      else some ""
    else some ""
  match step1 with
  | none => none
  | some validators => parseSpecTransPart input validators

/-- The validator loop of `ValidateSingleField` (lines 99-103). -/
def runSingleValidators (v : GoVal) : List VEntry → Option String
  | [] => none
  | e :: rest =>
    match e.fn v e.arg with
    | some err => some err
    | none => runSingleValidators v rest

/-- The transformer loop of `ValidateSingleField` (lines 113-115). -/
def applySingleTransformers : List TEntry → GoVal → GoVal
  | [], v => v
  | (_, f) :: rest, v => applySingleTransformers rest (f v)

/-- The transformer half of `ValidateSingleField` (lines 106-117). -/
def ValidateSingleFieldTrans (treg : TransformerRegistry) (value : GoVal)
    (transformersStr : String) : Option (GoVal × Option String) :=
  if transformersStr.length > 0 then
    match parseTransformers treg transformersStr with
    | .error e => some (value, some e)
    | .ok tents => some (applySingleTransformers tents value, none)
  else some (value, none)

/-- Models `ValidateSingleField` (lines 88-123): returns `none` when the spec
parser panics, otherwise the pair of the Go function's two results. -/
def ValidateSingleField (treg : TransformerRegistry) (vreg : ValidatorRegistry)
    (value : GoVal) (validatorAndTransformerSpec : String) :
    Option (GoVal × Option String) :=
  match parseSingleFieldValidatorAndTransformerSpec validatorAndTransformerSpec with
  | none => none
  | some (validatorsStr, transformersStr) =>
    if validatorsStr.length > 0 then
      match parseFieldValidators vreg validatorsStr with
      | .error e => some (value, some e)
      | .ok vents =>
        match runSingleValidators value vents with
        | some e => some (value, some e)
        | none => ValidateSingleFieldTrans treg value transformersStr
    else ValidateSingleFieldTrans treg value transformersStr

/-! ## Demo transformers (the dummy transformers of the repository's tests) -/

/-- Models `toUpperCase` of xmapper_test.go: upper-case a string (per character, as
`strings.ToUpper` does on ASCII), identity elsewhere. -/
def toUpperCase : TransformerFunc
  | .str s => .str ⟨s.data.map Char.toUpper⟩
  | v => v

/-- Models `addExclamation` of xmapper_test.go. -/
def addExclamation : TransformerFunc
  | .str s => .str (s ++ "!")
  | v => v

/-- Models `repeatTwice` of xmapper_test.go. -/
def repeatTwice : TransformerFunc
  | .str s => .str (s ++ " " ++ s)
  | v => v

/-- A registry holding the three demo transformers. -/
def demoTreg : TransformerRegistry :=
  [("toUpperCase", toUpperCase), ("addExclamation", addExclamation),
   ("repeatTwice", repeatTwice)]

/-- Models `RequiredValidator` of validators/validators.go: non-string inputs and
whitespace-only strings are rejected. -/
def RequiredValidator : ValidatorFunc := fun input _ =>
  match input with
  | .str s =>
    if goTrim s = "" then some "input is required and cannot be empty" else none
  | _ => some "failed to map the input to a string"

/-- Models `MinLengthValidator` of validators/validators.go (length in characters,
which agrees with Go's byte length on ASCII). -/
def MinLengthValidator : ValidatorFunc := fun input length =>
  match input with
  | .str s =>
    match length.toNat? with
    | none => some "failed to convert length to integer"
    | some minLength =>
      if s.length < minLength then
        some ("input does not meet the minimum length requirement, minimum length is "
          ++ length)
      else none
  | _ => some "failed to map the input to a string"

/-- A registry holding the two demo validators. -/
def demoVreg : ValidatorRegistry :=
  [("required", RequiredValidator), ("minLength", MinLengthValidator)]

/-- Sequencing of mapping results: keep an aborted first result, otherwise
continue from its destination and concatenate the traces.  (Used to state
how the field loop decomposes over a split of the field list.) -/
def combineRes (r₁ : MapRes) (k : List Fld → MapRes) : MapRes :=
  match r₁.err with
  | some _ => r₁
  | none =>
    let r₂ := k r₁.dest
    ⟨r₂.err, r₂.dest, r₁.trace ++ r₂.trace⟩

/-! ## Helper lemmas -/

lemma splitOnCharList_no_sep (c : Char) (cs : List Char) (h : cs.contains c = false) :
    splitOnCharList c cs = [cs] := by
  induction cs with
  | nil => rfl
  | cons d rest ih =>
    simp only [List.contains_cons, Bool.or_eq_false_iff, beq_eq_false_iff_ne] at h
    simp only [splitOnCharList, ih h.2]
    rw [if_neg (by exact fun hdc => h.1 hdc.symm)]

lemma goSplit_no_sep (s : String) (c : Char) (h : s.data.contains c = false) :
    goSplit s c = [s] := by
  simp only [goSplit, splitOnCharList_no_sep c s.data h, List.map]

lemma splitFirstColon_no_colon (cs : List Char) (h : cs.contains ':' = false) :
    splitFirstColon cs = (cs, none) := by
  induction cs with
  | nil => rfl
  | cons c rest ih =>
    simp only [List.contains_cons, Bool.or_eq_false_iff, beq_eq_false_iff_ne] at h
    simp only [splitFirstColon, ih h.2]
    rw [if_neg (fun hc => h.1 hc.symm)]

/-! ## Claims -/

/-- C7: `MapStructs` returns the precondition error whenever either argument
is not a pointer to a struct, the destination is returned unmodified and
nothing was executed (empty trace). -/
theorem C7_precondition_error (treg : TransformerRegistry) (vreg : ValidatorRegistry)
    (src dest : GoVal)
    (h : isValidStructPointer src = false ∨ isValidStructPointer dest = false) :
    MapStructs treg vreg src dest =
      (some "both source and destination must be pointer to a struct", dest, []) := by
  unfold MapStructs
  rcases h with h | h <;> simp [h]

/-- Witness for C7 at a concrete non-pointer argument. -/
theorem C7_precondition_error_witness :
    isValidStructPointer (GoVal.str "src") = false ∧
    MapStructs [] [] (GoVal.str "src") (GoVal.str "dest") =
      (some "both source and destination must be pointer to a struct", GoVal.str "dest", []) :=
  ⟨rfl, C7_precondition_error [] [] _ _ (Or.inl rfl)⟩

/-- C3: a pipeline-construction failure — an unregistered transformer or an
unregistered validator named by any tag at a struct level — aborts that
level while the pipelines are being built, before any field is processed:
the mapping returns exactly that error, the destination fields are
unchanged and the trace is empty, both at the recursive level and through
`MapStructs`; an unregistered transformer name yields the "transformer not
found" error from `parseTransformers`, and an unregistered validator name
the "validator not found" error from `parseFieldValidators`. -/
theorem C3_unregistered_entry_aborts_level :
    (∀ (treg : TransformerRegistry) (vreg : ValidatorRegistry) (fuel : Nat)
       (sf df : List Fld) (e : String),
       findTransformers treg sf = .error e →
       mapStructsRecursiveF treg vreg fuel sf df = ⟨some e, df, []⟩) ∧
    (∀ (treg : TransformerRegistry) (vreg : ValidatorRegistry)
       (sf df : List Fld) (e : String),
       findTransformers treg sf = .error e →
       MapStructs treg vreg (.ptr (.structV sf)) (.ptr (.structV df)) =
         (some e, .ptr (.structV df), [])) ∧
    (∀ (treg : TransformerRegistry) (name : String),
       name.data.contains ',' = false →
       treg.lookup (goTrim name) = none →
       parseTransformers treg name =
         .error ("transformer " ++ squo ++ goTrim name ++ squo ++ " not found")) ∧
    (∀ (treg : TransformerRegistry) (vreg : ValidatorRegistry) (fuel : Nat)
       (sf df : List Fld) (T : TMap) (e : String),
       findTransformers treg sf = .ok T →
       findValidators vreg sf = .error e →
       mapStructsRecursiveF treg vreg fuel sf df = ⟨some e, df, []⟩) ∧
    (∀ (treg : TransformerRegistry) (vreg : ValidatorRegistry)
       (sf df : List Fld) (T : TMap) (e : String),
       findTransformers treg sf = .ok T →
       findValidators vreg sf = .error e →
       MapStructs treg vreg (.ptr (.structV sf)) (.ptr (.structV df)) =
         (some e, .ptr (.structV df), [])) ∧
    (∀ (vreg : ValidatorRegistry) (name : String),
       name.data.contains ',' = false →
       name.data.contains ':' = false →
       vreg.lookup (goTrim name) = none →
       parseFieldValidators vreg name =
         .error ("validator " ++ squo ++ goTrim name ++ squo ++ " not found")) := by
  refine ⟨fun treg vreg fuel sf df e h => ?_, fun treg vreg sf df e h => ?_,
    fun treg name hc hl => ?_, fun treg vreg fuel sf df T e hT hV => ?_,
    fun treg vreg sf df T e hT hV => ?_, fun vreg name hc hcol hl => ?_⟩
  · unfold mapStructsRecursiveF mapStructsRecursiveGen
    rw [h]
  · unfold MapStructs
    simp only [isValidStructPointer, Bool.and_self, if_true, elemFields]
    unfold mapStructsRecursiveF mapStructsRecursiveGen
    rw [h]
  · unfold parseTransformers
    rw [goSplit_no_sep name ',' hc]
    simp only [parseTransformersList, hl]
  · unfold mapStructsRecursiveF mapStructsRecursiveGen
    rw [hT]
    dsimp only
    rw [hV]
  · unfold MapStructs
    simp only [isValidStructPointer, Bool.and_self, if_true, elemFields]
    unfold mapStructsRecursiveF mapStructsRecursiveGen
    rw [hT]
    dsimp only
    rw [hV]
  · unfold parseFieldValidators
    rw [goSplit_no_sep name ',' hc]
    simp only [parseFieldValidatorsList, splitFirstColon_no_colon name.data hcol, hl]

/-- Witness for C3: two concrete mappings, one whose single source field
names the unregistered transformer "missing", one whose single source field
names the unregistered validator "missingV"; both abort with the respective
not-found error, destination untouched. -/
theorem C3_unregistered_entry_aborts_level_witness :
    findTransformers [] [Fld.mk "name" "" "missing" (.str "x")] =
      .error ("transformer " ++ squo ++ "missing" ++ squo ++ " not found") ∧
    MapStructs [] [] (.ptr (.structV [Fld.mk "name" "" "missing" (.str "x")]))
        (.ptr (.structV [Fld.mk "name" "" "" (.str "keep")])) =
      (some ("transformer " ++ squo ++ "missing" ++ squo ++ " not found"),
       .ptr (.structV [Fld.mk "name" "" "" (.str "keep")]), []) ∧
    findValidators [] [Fld.mk "name" "missingV" "" (.str "x")] =
      .error ("error parsing validators for field " ++ squo ++ "name" ++ squo ++
        ": " ++ ("validator " ++ squo ++ "missingV" ++ squo ++ " not found")) ∧
    MapStructs [] [] (.ptr (.structV [Fld.mk "name" "missingV" "" (.str "x")]))
        (.ptr (.structV [Fld.mk "name" "" "" (.str "keep")])) =
      (some ("error parsing validators for field " ++ squo ++ "name" ++ squo ++
         ": " ++ ("validator " ++ squo ++ "missingV" ++ squo ++ " not found")),
       .ptr (.structV [Fld.mk "name" "" "" (.str "keep")]), []) :=
  ⟨rfl, C3_unregistered_entry_aborts_level.2.1 [] [] _ _ _ rfl, rfl,
   C3_unregistered_entry_aborts_level.2.2.2.2.1 [] [] _ _ [] _ rfl rfl⟩

/-- C6: the pointer rule has highest priority in `setFieldValue`:
(1) a nil source pointer zeroes the destination and stops (no error, no
validator or transformer invocation); (2) a non-nil source pointer is
unwrapped before the remaining rules apply; (3) a nil destination pointer is
allocated (a zero of the pointee type) and the value is written into the
allocated storage. -/
theorem C6_optional_coercion :
    (∀ (treg : TransformerRegistry) (vreg : ValidatorRegistry) (fuel : Nat)
       (fname : String) (proto dest : GoVal) (trs : List TEntry),
       setFieldValueF treg vreg (fuel + 1) fname (.nilPtr proto) dest trs =
         ⟨none, zeroLike dest, []⟩) ∧
    (∀ (treg : TransformerRegistry) (vreg : ValidatorRegistry) (fuel : Nat)
       (fname : String) (v dest : GoVal) (trs : List TEntry),
       kindOf v ≠ GoKind.ptr →
       setFieldValueF treg vreg (fuel + 1) fname (.ptr v) dest trs =
         setFieldValueF treg vreg (fuel + 1) fname v dest trs) ∧
    (∀ (treg : TransformerRegistry) (vreg : ValidatorRegistry) (fuel : Nat)
       (fname : String) (src proto : GoVal) (trs : List TEntry),
       kindOf src ≠ GoKind.ptr →
       setFieldValueF treg vreg (fuel + 1) fname src (.nilPtr proto) trs =
         (let r := setFieldValueCoreGen (setFieldValueF treg vreg fuel) treg vreg
            fname src (zeroLike proto) trs
          ⟨r.err, .ptr r.val, r.trace⟩)) := by
  refine ⟨fun treg vreg fuel fname proto dest trs => rfl,
    fun treg vreg fuel fname v dest trs hv => ?_,
    fun treg vreg fuel fname src proto trs hs => ?_⟩
  · cases v <;> simp [kindOf] at hv ⊢ <;> rfl
  · cases src <;> simp [kindOf] at hs ⊢ <;> rfl

/-- Witness for C6 at concrete values: a nil `*string` source zeroes a
string destination; a non-nil pointer source is unwrapped; a value written
to a nil `*string` destination allocates and fills the pointer. -/
theorem C6_optional_coercion_witness :
    setFieldValueF [] [] 1 "f" (.nilPtr (.str "")) (.str "old") [] =
      ⟨none, .str "", []⟩ ∧
    setFieldValueF [] [] 1 "f" (.ptr (.str "v")) (.str "old") [] =
      setFieldValueF [] [] 1 "f" (.str "v") (.str "old") [] ∧
    setFieldValueF [] [] 1 "f" (.str "v") (.nilPtr (.str "")) [] =
      ⟨none, .ptr (.str "v"), []⟩ :=
  ⟨(C6_optional_coercion.1 [] [] 0 "f" (.str "") (.str "old") []).trans rfl,
   C6_optional_coercion.2.1 [] [] 0 "f" (.str "v") (.str "old") [] (by decide),
   (C6_optional_coercion.2.2 [] [] 0 "f" (.str "v") (.str "") [] (by decide)).trans rfl⟩

/-- C2: transformers are applied in tag order with the output of step i fed
into step i+1 — a field whose tag parses to the chain [T1, T2] is mapped to
T2(T1(x)), with the invocation trace in that order — and the concrete
scenario: greeting "hello" under the chain
[toUpperCase, addExclamation, repeatTwice] maps to "HELLO! HELLO!". -/
theorem C2_transformer_chain_order :
    (∀ (treg : TransformerRegistry) (vreg : ValidatorRegistry) (fuel : Nat)
       (t1n t2n : String) (f1 f2 : TransformerFunc) (x y d0 jt tt : String),
       getFieldName jt ≠ "" →
       tt ≠ "" →
       parseTransformers treg tt = .ok [(t1n, f1), (t2n, f2)] →
       f2 (f1 (.str x)) = .str y →
       mapStructsRecursiveF treg vreg (fuel + 1)
           [Fld.mk jt "" tt (.str x)] [Fld.mk jt "" "" (.str d0)] =
         ⟨none, [Fld.mk jt "" "" (.str y)],
          [Ev.transform (getFieldName jt) t1n (.str x),
           Ev.transform (getFieldName jt) t2n (f1 (.str x))]⟩) ∧
    MapStructs demoTreg []
        (.ptr (.structV [Fld.mk "greeting" ""
          "toUpperCase,addExclamation,repeatTwice" (.str "hello")]))
        (.ptr (.structV [Fld.mk "greeting" "" "" (.str "")])) =
      (none, .ptr (.structV [Fld.mk "greeting" "" "" (.str "HELLO! HELLO!")]),
       [Ev.transform "greeting" "toUpperCase" (.str "hello"),
        Ev.transform "greeting" "addExclamation" (.str "HELLO"),
        Ev.transform "greeting" "repeatTwice" (.str "HELLO!")]) := by
  constructor
  · intro treg vreg fuel t1n t2n f1 f2 x y d0 jt tt hn htt hparse hy
    unfold mapStructsRecursiveF mapStructsRecursiveGen
    simp only [buildDestinationFieldMap, buildDestinationFieldMapAux,
      findTransformers, findTransformersAux, findValidators, findValidatorsAux,
      Fld.jsonTag, Fld.validatorTag, Fld.transformerTag, Fld.value,
      htt, ne_eq, not_false_eq_true, if_true, ite_true, hparse, if_pos hn]
    simp only [processFieldsGen, hn, if_false, ite_false, List.lookup,
      beq_self_eq_true, if_pos, Fld.jsonTag, Fld.value]
    simp only [setFieldValueF, setFieldValueCoreGen, applyTransformers, hy,
      kindOf, setAt, List.get?, Option.getD, List.set, if_true]
    simp [Fld.jsonTag, Fld.validatorTag, Fld.transformerTag, hy]
  · rfl

/-- Witness for C2's general conjunct: a two-transformer chain
[toUpperCase, addExclamation] turns "hi" into "HI!". -/
theorem C2_transformer_chain_order_witness :
    mapStructsRecursiveF demoTreg [] 1
        [Fld.mk "g" "" "toUpperCase,addExclamation" (.str "hi")]
        [Fld.mk "g" "" "" (.str "")] =
      ⟨none, [Fld.mk "g" "" "" (.str "HI!")],
       [Ev.transform "g" "toUpperCase" (.str "hi"),
        Ev.transform "g" "addExclamation" (.str "HI")]⟩ :=
  C2_transformer_chain_order.1 demoTreg [] 0 "toUpperCase" "addExclamation"
    toUpperCase addExclamation "hi" "HI!" "" "g" "toUpperCase,addExclamation"
    (by decide) (by decide) rfl rfl

lemma runValidators_all_pass (n : String) (v : GoVal) (ents : List VEntry)
    (h : ∀ p ∈ ents, p.fn v p.arg = none) :
    runValidators n v ents = (none, ents.map fun p => Ev.validate n p.name p.arg v) := by
  induction ents with
  | nil => rfl
  | cons e rest ih =>
    have he := h e (List.mem_cons_self e rest)
    simp [runValidators, he, ih (fun p hp => h p (List.mem_cons_of_mem e hp))]

lemma runValidators_first_fail (n : String) (v : GoVal) (good : List VEntry)
    (bad : VEntry) (more : List VEntry) (cause : String)
    (hpass : ∀ p ∈ good, p.fn v p.arg = none)
    (hfail : bad.fn v bad.arg = some cause) :
    runValidators n v (good ++ bad :: more) =
      (some cause, (good.map fun p => Ev.validate n p.name p.arg v) ++
        [Ev.validate n bad.name bad.arg v]) := by
  induction good with
  | nil => simp [runValidators, hfail]
  | cons e rest ih =>
    have he := hpass e (List.mem_cons_self e rest)
    simp [runValidators, he, ih (fun p hp => hpass p (List.mem_cons_of_mem e hp))]

/-- Processing a concatenation of field lists: the first part runs, and if
it did not abort the second part continues from its destination. -/
lemma processFieldsGen_append (sfv : String → GoVal → GoVal → List TEntry → SetRes)
    (T : TMap) (V : VMap) (dmap : List (String × Nat)) (l₁ l₂ : List Fld)
    (dest : List Fld) :
    processFieldsGen sfv T V dmap (l₁ ++ l₂) dest =
      combineRes (processFieldsGen sfv T V dmap l₁ dest)
        (processFieldsGen sfv T V dmap l₂) := by
  induction l₁ generalizing dest with
  | nil => simp [processFieldsGen, combineRes]
  | cons f rest ih =>
    simp only [List.cons_append, processFieldsGen]
    by_cases hf : getFieldName f.jsonTag = ""
    · simp only [hf, ite_true]
      exact ih dest
    · simp only [hf, ite_false]
      cases hrv : (match V.lookup (getFieldName f.jsonTag) with
        | some ents => runValidators (getFieldName f.jsonTag) f.value ents
        | none => ((none : Option String), ([] : List Ev))) with
      | mk verr vtr =>
        cases verr with
        | some cause => simp [combineRes]
        | none =>
          cases hd : dmap.lookup (getFieldName f.jsonTag) with
          | none =>
            simp only [List.append_eq]
            rw [ih dest]
            cases hr : processFieldsGen sfv T V dmap rest dest with
            | mk e d t => cases e <;> simp [combineRes]
          | some i =>
            cases hs : (sfv (getFieldName f.jsonTag) f.value
                (dest[i]?.getD defaultFld).value
                ((T.lookup (getFieldName f.jsonTag)).getD [])).err with
            | some e => simp [combineRes, hs]
            | none =>
              simp only [List.append_eq]
              rw [ih]
              cases hr : processFieldsGen sfv T V dmap rest
                  (setAt dest i (sfv (getFieldName f.jsonTag) f.value
                    (dest[i]?.getD defaultFld).value
                    ((T.lookup (getFieldName f.jsonTag)).getD [])).val) with
              | mk e d t => cases e <;> simp [combineRes, hs, hr]

/-- C1: for any mapping call reaching a field `f` (fields before it, `pre`,
processed without error), `f`'s parsed validators run in tag order against
the untransformed source value `f.value`, each with its parsed argument; at
the first failing validator the whole mapping aborts with an error naming
the field and the failure cause, the destination stays as `pre` left it (no
write for `f`), and the trace ends at the failing validator's event — in
particular no transformer runs for `f` after the failure. -/
theorem C1_validator_order_and_abort
    (treg : TransformerRegistry) (vreg : ValidatorRegistry) (fuel : Nat)
    (pre post : List Fld) (f : Fld) (df d1 : List Fld) (t1 : List Ev)
    (T : TMap) (V : VMap) (good : List VEntry) (bad : VEntry) (more : List VEntry)
    (cause : String) (n : String)
    (hn : getFieldName f.jsonTag = n) (hne : n ≠ "")
    (hT : findTransformers treg (pre ++ f :: post) = .ok T)
    (hV : findValidators vreg (pre ++ f :: post) = .ok V)
    (hlook : V.lookup n = some (good ++ bad :: more))
    (hpass : ∀ p ∈ good, p.fn f.value p.arg = none)
    (hfail : bad.fn f.value bad.arg = some cause)
    (hpre : processFieldsGen (setFieldValueF treg vreg fuel) T V
      (buildDestinationFieldMap df) pre df = ⟨none, d1, t1⟩) :
    mapStructsRecursiveF treg vreg fuel (pre ++ f :: post) df =
      ⟨some ("validation failed for field " ++ squo ++ n ++ squo ++ ": " ++ cause),
       d1,
       t1 ++ ((good.map fun p => Ev.validate n p.name p.arg f.value) ++
         [Ev.validate n bad.name bad.arg f.value])⟩ := by
  unfold mapStructsRecursiveF mapStructsRecursiveGen
  rw [hT, hV]
  dsimp only
  rw [processFieldsGen_append, hpre]
  simp only [combineRes]
  simp only [processFieldsGen, hn, hne, ite_false, hlook,
    runValidators_first_fail n f.value good bad more cause hpass hfail]

/-- Witness for C1: the `required` validator rejects an empty string field,
aborting the mapping with the field-naming error, no write, and a trace
ending at the failing validator. -/
theorem C1_validator_order_and_abort_witness :
    mapStructsRecursiveF [] demoVreg 1
        [Fld.mk "email" "required" "" (.str "")]
        [Fld.mk "email" "" "" (.str "keep")] =
      ⟨some ("validation failed for field " ++ squo ++ "email" ++ squo ++
         ": " ++ "input is required and cannot be empty"),
       [Fld.mk "email" "" "" (.str "keep")],
       [Ev.validate "email" "required" "" (.str "")]⟩ :=
  C1_validator_order_and_abort [] demoVreg 1 [] []
    (Fld.mk "email" "required" "" (.str ""))
    [Fld.mk "email" "" "" (.str "keep")] [Fld.mk "email" "" "" (.str "keep")] []
    [] [("email", [⟨"required", "", RequiredValidator⟩])]
    [] ⟨"required", "", RequiredValidator⟩ []
    "input is required and cannot be empty" "email"
    rfl (by decide) rfl rfl rfl (fun p hp => absurd hp (List.not_mem_nil p)) rfl rfl

/-- C8: a source field whose logical name has no counterpart in the
destination field index causes no error and no write: when the mapping
reaches it (fields before it processed without error, its own validators
passing), processing continues on the remaining fields from an unchanged
destination, the field contributing only its validator events to the trace;
the overall outcome is exactly that of the remaining fields. -/
theorem C8_unmatched_source_field_ignored
    (treg : TransformerRegistry) (vreg : ValidatorRegistry) (fuel : Nat)
    (pre post : List Fld) (f : Fld) (df d1 : List Fld) (t1 : List Ev)
    (T : TMap) (V : VMap) (n : String)
    (hn : getFieldName f.jsonTag = n) (hne : n ≠ "")
    (hmiss : (buildDestinationFieldMap df).lookup n = none)
    (hT : findTransformers treg (pre ++ f :: post) = .ok T)
    (hV : findValidators vreg (pre ++ f :: post) = .ok V)
    (hvpass : ∀ p ∈ (V.lookup n).getD [], p.fn f.value p.arg = none)
    (hpre : processFieldsGen (setFieldValueF treg vreg fuel) T V
      (buildDestinationFieldMap df) pre df = ⟨none, d1, t1⟩) :
    mapStructsRecursiveF treg vreg fuel (pre ++ f :: post) df =
      (let r := processFieldsGen (setFieldValueF treg vreg fuel) T V
        (buildDestinationFieldMap df) post d1
       ⟨r.err, r.dest,
        t1 ++ (((V.lookup n).getD []).map fun p => Ev.validate n p.name p.arg f.value)
          ++ r.trace⟩) := by
  unfold mapStructsRecursiveF mapStructsRecursiveGen
  rw [hT, hV]
  dsimp only
  rw [processFieldsGen_append, hpre]
  simp only [combineRes]
  cases hl : V.lookup n with
  | none =>
    simp only [processFieldsGen, hn, hne, ite_false, hmiss, hl, Option.getD,
      List.map_nil]
    simp
  | some ents =>
    simp only [processFieldsGen, hn, hne, ite_false, hmiss, hl, Option.getD,
      runValidators_all_pass n f.value ents (by simpa [hl] using hvpass)]
    simp [List.append_assoc]

/-- Witness for C8: a source field "extra" with no destination counterpart
is ignored — the mapping succeeds, writes the matched field "name", and
performs no write and no error for "extra". -/
theorem C8_unmatched_source_field_ignored_witness :
    mapStructsRecursiveF [] [] 1
        [Fld.mk "extra" "" "" (.str "zzz"), Fld.mk "name" "" "" (.str "v")]
        [Fld.mk "name" "" "" (.str "old")] =
      ⟨none, [Fld.mk "name" "" "" (.str "v")], []⟩ :=
  (C8_unmatched_source_field_ignored [] [] 1 [] [Fld.mk "name" "" "" (.str "v")]
    (Fld.mk "extra" "" "" (.str "zzz"))
    [Fld.mk "name" "" "" (.str "old")] [Fld.mk "name" "" "" (.str "old")] []
    [] [] "extra" rfl (by decide) rfl rfl rfl
    (fun p hp => absurd hp (List.not_mem_nil p)) rfl).trans rfl

/-- C4 counterexample: mapping the text "go, dev" into a `[]string`
destination does NOT comma-split it — the string→slice JSON rule (line 301)
fires first, the JSON parse fails, the mapping returns an error and the
destination keeps its prior (empty) value, contradicting the claimed
split/trim/assign behaviour at this input. -/
theorem C4_comma_split_counterexample :
    MapStructs [] [] (.ptr (.structV [Fld.mk "tags" "" "" (.str "go, dev")]))
        (.ptr (.structV [Fld.mk "tags" "" "" (.sliceV (.str "") [])])) =
      (some ("json: cannot unmarshal " ++ "go, dev"),
       .ptr (.structV [Fld.mk "tags" "" "" (.sliceV (.str "") [])]), []) ∧
    (some ("json: cannot unmarshal " ++ "go, dev") : Option String) ≠ none :=
  ⟨rfl, by decide⟩

/-- C4 amended: a text source destined for a string sequence is decoded as
JSON (the empty text as the empty array "[]"); on decode success the
destination becomes the decoded sequence, on failure the mapping aborts and
the destination slot keeps its prior value.  The comma-split rule of
line 327 is unreachable (subsumed by the JSON rule of line 301). -/
theorem C4_text_to_string_sequence_is_json
    (treg : TransformerRegistry) (vreg : ValidatorRegistry) (fuel : Nat)
    (fname s : String) (dp : GoVal) (des : List GoVal) (trs : List TEntry)
    (hdp : kindOf dp = GoKind.str) :
    setFieldValueF treg vreg (fuel + 1) fname (.str s) (.sliceV dp des) trs =
      (match jsonDecodeStrList (if s.length = 0 then "[]" else s) with
       | some l => ⟨none, .sliceV dp (l.map GoVal.str), []⟩
       | none => ⟨some ("json: cannot unmarshal " ++ (if s.length = 0 then "[]" else s)),
           .sliceV dp des, []⟩) := by
  cases hdec : jsonDecodeStrList (if s.length = 0 then "[]" else s) <;>
    simp [setFieldValueF, setFieldValueCoreGen, jsonUnmarshalSlice, hdp, hdec]

/-- Witness for C4's amended rule: the JSON text for ["go","dev"] decodes
into the string slice. -/
theorem C4_text_to_string_sequence_is_json_witness :
    setFieldValueF [] [] 1 "tags" (.str "[\"go\",\"dev\"]") (.sliceV (.str "") []) [] =
      ⟨none, .sliceV (.str "") [.str "go", .str "dev"], []⟩ :=
  (C4_text_to_string_sequence_is_json [] [] 0 "tags" "[\"go\",\"dev\"]"
    (.str "") [] [] rfl).trans rfl

/-- C5 counterexample: mapping the string sequence ["go","dev"] into a text
destination does NOT join with commas — the slice→string JSON rule
(line 317) fires first and stores the JSON array text, which differs from
the comma join, so the claimed round trip mechanism fails at its first leg. -/
theorem C5_comma_join_counterexample :
    MapStructs [] []
        (.ptr (.structV [Fld.mk "tags" "" "" (.sliceV (.str "") [.str "go", .str "dev"])]))
        (.ptr (.structV [Fld.mk "tags" "" "" (.str "")])) =
      (none, .ptr (.structV [Fld.mk "tags" "" "" (.str "[\"go\",\"dev\"]")]), []) ∧
    "[\"go\",\"dev\"]" ≠ "go,dev" :=
  ⟨rfl, by decide⟩

lemma skipWs_cons (c : Char) (r : List Char) (h : jsonIsWs c = false) :
    skipWs (c :: r) = c :: r := by
  simp [skipWs, List.dropWhile, h]
lemma jsonSafeChar_spec (c : Char) (h : jsonSafeChar c = true) :
    ¬(c = dquoChar) ∧ (decide (c = bslashChar) || decide (c.toNat < 0x20)) = false := by
  simp only [jsonSafeChar, Bool.and_eq_true, decide_eq_true_eq] at h
  have h1 : ¬(c = dquoChar) := by tauto
  have h2 : ¬(c = bslashChar) := by tauto
  have h3 : 0x20 ≤ c.toNat := by tauto
  refine ⟨h1, ?_⟩
  simp only [Bool.or_eq_false_iff, decide_eq_false_iff_not]
  exact ⟨h2, by omega⟩

lemma parseJStrBody_append (cs rest : List Char)
    (h : ∀ c ∈ cs, jsonSafeChar c = true) :
    parseJStrBody (cs ++ dquoChar :: rest) = some (⟨cs⟩, rest) := by
  induction cs with
  | nil => simp [parseJStrBody]
  | cons c cs ih =>
    obtain ⟨h1, h2⟩ := jsonSafeChar_spec c (h c (List.mem_cons_self c cs))
    simp only [List.cons_append, parseJStrBody, if_neg h1, h2, Bool.false_eq_true,
      ite_false, List.append_eq, ih (fun d hd => h d (List.mem_cons_of_mem c hd))]

lemma parseJStr_quote (s : String) (rest : List Char)
    (h : jsonSafe s = true) :
    parseJStr (jsonQuote s ++ rest) = some (s, rest) := by
  have hs : ∀ c ∈ s.data, jsonSafeChar c = true := by
    simpa [jsonSafe, List.all_eq_true] using h
  simp only [jsonQuote, List.cons_append, List.append_assoc, List.singleton_append,
    parseJStr, if_pos rfl, ite_true]
  simp [parseJStrBody_append s.data rest hs]

lemma jsonEncodeElems_cons_head (s : String) (rest : List String) :
    jsonEncodeElems (s :: rest) = dquoChar :: (s.data ++ [dquoChar] ++
      (match rest with | [] => [] | _ :: _ => ',' :: jsonEncodeElems rest)) := by
  cases rest <;> simp [jsonEncodeElems, jsonQuote]

lemma jsonEncodeElems_length (l : List String) :
    l.length ≤ (jsonEncodeElems l).length := by
  induction l with
  | nil => simp [jsonEncodeElems]
  | cons s rest ih =>
    cases rest with
    | nil => simp [jsonEncodeElems, jsonQuote]
    | cons s2 r2 =>
      simp only [jsonEncodeElems, jsonQuote, List.length_append, List.length_cons]
      simp only [List.length_cons] at ih
      omega

lemma parseJStrElems_encode (l : List String) (fuel : Nat)
    (hne : l ≠ []) (hsafe : ∀ s ∈ l, jsonSafe s = true)
    (hfuel : l.length ≤ fuel) :
    parseJStrElems fuel (jsonEncodeElems l ++ [']']) = some (l, [']']) := by
  induction l generalizing fuel with
  | nil => exact absurd rfl hne
  | cons s rest ih =>
    cases fuel with
    | zero => simp at hfuel
    | succ fuel =>
      cases rest with
      | nil =>
        simp only [jsonEncodeElems, parseJStrElems,
          parseJStr_quote s [']'] (hsafe s (List.mem_cons_self s [])),
          skipWs_cons ']' [] (by decide)]
        rw [if_neg (by decide)]
      | cons s2 r2 =>
        simp only [jsonEncodeElems, List.append_assoc, List.cons_append, parseJStrElems,
          parseJStr_quote s (',' :: (jsonEncodeElems (s2 :: r2) ++ [']']))
            (hsafe s (List.mem_cons_self s (s2 :: r2))),
          skipWs_cons ',' _ (by decide)]
        rw [if_true]
        have hsw : skipWs (jsonEncodeElems (s2 :: r2) ++ [']']) =
            jsonEncodeElems (s2 :: r2) ++ [']'] := by
          rw [jsonEncodeElems_cons_head s2 r2, List.cons_append,
            skipWs_cons dquoChar _ (by decide), ← List.cons_append,
            ← jsonEncodeElems_cons_head s2 r2]
        rw [hsw, ih fuel (by simp) (fun t ht => hsafe t (List.mem_cons_of_mem s ht))
          (by simp only [List.length_cons] at hfuel ⊢; omega)]

/-- Round trip of the modelled codec: decoding the encoded string sequence
reproduces it, for sequences of `jsonSafe` elements. -/
lemma jsonDecodeStrList_encode (l : List String) (h : ∀ s ∈ l, jsonSafe s = true) :
    jsonDecodeStrList (jsonEncodeStrList l) = some l := by
  cases l with
  | nil => rfl
  | cons s rest =>
    have hsw : skipWs (jsonEncodeElems (s :: rest) ++ [']']) =
        jsonEncodeElems (s :: rest) ++ [']'] := by
      rw [jsonEncodeElems_cons_head s rest, List.cons_append,
        skipWs_cons dquoChar _ (by decide), ← List.cons_append,
        ← jsonEncodeElems_cons_head s rest]
    unfold jsonDecodeStrList jsonEncodeStrList
    dsimp only
    rw [List.cons_append, skipWs_cons '[' _ (by decide)]
    dsimp only
    rw [if_pos rfl, hsw]
    rw [jsonEncodeElems_cons_head s rest, List.cons_append]
    dsimp only
    rw [if_neg (by decide)]
    rw [← List.cons_append, ← jsonEncodeElems_cons_head s rest]
    rw [parseJStrElems_encode (s :: rest) _ (by simp) h
      (by
        have := jsonEncodeElems_length (s :: rest)
        simp only [List.length_cons, List.length_append] at this ⊢
        omega)]
    dsimp only
    rw [skipWs_cons ']' [] (by decide)]
    dsimp only
    rw [if_pos (show (']' = ']') ∧ (skipWs []).isEmpty = true from ⟨rfl, rfl⟩)]

/-- C5 amended: the two coercions between string sequences and text go
through the JSON codec, not comma join/split — a string sequence destined
for text is serialized as a JSON array, that text destined for a string
sequence is parsed back, and the round trip reproduces the original
sequence for every sequence of `jsonSafe` elements (no characters that
JSON escapes; no comma or whitespace condition is needed). -/
theorem C5_json_roundtrip
    (treg : TransformerRegistry) (vreg : ValidatorRegistry) (fuel : Nat)
    (fname : String) (l : List String) (sp dp : GoVal) (des : List GoVal)
    (d0 : String) (trs trs' : List TEntry)
    (hsafe : ∀ s ∈ l, jsonSafe s = true) (hdp : kindOf dp = GoKind.str) :
    setFieldValueF treg vreg (fuel + 1) fname
        (.sliceV sp (l.map GoVal.str)) (.str d0) trs =
      ⟨none, .str (jsonEncodeStrList l), []⟩ ∧
    setFieldValueF treg vreg (fuel + 1) fname
        (.str (jsonEncodeStrList l)) (.sliceV dp des) trs' =
      ⟨none, .sliceV dp (l.map GoVal.str), []⟩ := by
  constructor
  · simp only [setFieldValueF, setFieldValueCoreGen, jsonMarshalSlice]
    rw [if_pos (by simp [List.all_map, Function.comp, kindOf])]
    have : (getStr ∘ GoVal.str) = id := by
      funext s
      rfl
    simp [List.map_map, this]
  · have hlen : ¬((jsonEncodeStrList l).length = 0) := by
      simp [jsonEncodeStrList, String.length]
    simp only [setFieldValueF, setFieldValueCoreGen, if_neg hlen, ite_false,
      jsonUnmarshalSlice, hdp, jsonDecodeStrList_encode l hsafe, Option.map_some]
    rfl

/-- Witness for C5's amended round trip at ["go","dev"]. -/
theorem C5_json_roundtrip_witness :
    setFieldValueF [] [] 1 "tags"
        (.sliceV (.str "") [.str "go", .str "dev"]) (.str "") [] =
      ⟨none, .str "[\"go\",\"dev\"]", []⟩ ∧
    setFieldValueF [] [] 1 "tags"
        (.str "[\"go\",\"dev\"]") (.sliceV (.str "") []) [] =
      ⟨none, .sliceV (.str "") [.str "go", .str "dev"], []⟩ :=
  ⟨((C5_json_roundtrip [] [] 0 "tags" ["go", "dev"] (.str "") (.str "") []
      "" [] [] (by decide) rfl).1).trans rfl,
   ((C5_json_roundtrip [] [] 0 "tags" ["go", "dev"] (.str "") (.str "") []
      "" [] [] (by decide) rfl).2).trans rfl⟩

lemma strIndexNat_single_none (s : String) (ch : Char)
    (h : ∀ c ∈ s.data, c ≠ ch) :
    strIndexNat s ⟨[ch]⟩ = none := by
  unfold strIndexNat
  apply List.find?_eq_none.mpr
  intro i _
  cases hd : s.data.drop i with
  | nil => simp [List.isPrefixOf]
  | cons c t =>
    have hc : c ∈ s.data := List.drop_subset i s.data (hd ▸ List.mem_cons_self c t)
    simp [List.isPrefixOf, Ne.symm (h c hc)]

lemma strIndexNat_single_isSome (s : String) (ch : Char) (h : ch ∈ s.data) :
    ∃ i, strIndexNat s ⟨[ch]⟩ = some i := by
  unfold strIndexNat
  have hlt : s.data.indexOf ch < s.data.length := List.indexOf_lt_length.mpr h
  have hp : ([ch].isPrefixOf (s.data.drop (s.data.indexOf ch))) = true := by
    rw [List.drop_eq_getElem_cons hlt]
    simp [List.isPrefixOf, List.getElem_indexOf hlt]
  have hex : ∃ x ∈ List.range (s.data.length + 1),
      (((⟨[ch]⟩ : String).data.isPrefixOf (s.data.drop x)) = true) :=
    ⟨s.data.indexOf ch, List.mem_range.mpr (by omega), hp⟩
  obtain ⟨i, hi⟩ := Option.isSome_iff_exists.mp (List.find?_isSome.mpr hex)
  exact ⟨i, hi⟩

lemma strIndexNat_le (s sub : String) (i : Nat)
    (h : strIndexNat s sub = some i) :
    i + sub.data.length ≤ s.data.length := by
  unfold strIndexNat at h
  have hp := List.find?_some h
  have hpre := (List.isPrefixOf_iff_prefix.mp hp).length_le
  rw [List.length_drop] at hpre
  have hmem := List.mem_of_find?_eq_some h
  rw [List.mem_range] at hmem
  omega

/-- An unclosed quote after the validators marker drives the Go code into
`input[valStart+12 : valStart+11]`, a slice-bounds panic. -/
lemma parseSpec_val_unclosed (input : String) (p : Nat)
    (hp : strIndexNat input validatorsMarker = some p)
    (hq : ∀ c ∈ input.data.drop (p + 12), c ≠ squoChar) :
    parseSingleFieldValidatorAndTransformerSpec input = none := by
  have h12 : (((p : Int)) + 12).toNat = p + 12 := by omega
  have hregion : strIndexNat (goDropStr input (p + 12)) squo = none :=
    strIndexNat_single_none _ squoChar hq
  unfold parseSingleFieldValidatorAndTransformerSpec
  simp only [strIndex, hp]
  rw [if_pos (by omega : ¬((p : Int) = -1))]
  rw [h12]
  simp only [hregion]
  rw [if_pos (by omega : ¬((-1 : Int) + p + 11 = -1))]
  unfold goSliceStr
  rw [if_neg (by omega)]

/-- An unclosed quote after the transformers marker drives the Go code into
`input[transStart+14 : transStart+13]`, a slice-bounds panic. -/
lemma parseSpecTransPart_unclosed (input validators : String) (q : Nat)
    (hq : strIndexNat input transformersMarker = some q)
    (hnq : ∀ c ∈ input.data.drop (q + 14), c ≠ squoChar) :
    parseSpecTransPart input validators = none := by
  have h14 : (((q : Int)) + 14).toNat = q + 14 := by omega
  have hregion : strIndexNat (goDropStr input (q + 14)) squo = none :=
    strIndexNat_single_none _ squoChar hnq
  unfold parseSpecTransPart
  simp only [strIndex, hq]
  rw [if_pos (by omega : ¬((q : Int) = -1))]
  rw [h14]
  simp only [hregion]
  rw [if_pos (by omega : ¬((-1 : Int) + q + 14 = -1))]
  unfold goSliceStr
  rw [if_neg (by omega)]

/-- C9: `ValidateSingleField` is not total — on any specification string
containing the validators marker (or the transformers marker) with no
closing quote anywhere after it, the spec parser slices with a lower bound
above its upper bound and the call panics (modelled as `none`) instead of
returning a value or an error. -/
theorem C9_unclosed_marker_panics
    (treg : TransformerRegistry) (vreg : ValidatorRegistry)
    (value : GoVal) (input : String)
    (h : (∃ p, strIndexNat input validatorsMarker = some p ∧
           ∀ c ∈ input.data.drop (p + 12), c ≠ squoChar) ∨
         (∃ q, strIndexNat input transformersMarker = some q ∧
           ∀ c ∈ input.data.drop (q + 14), c ≠ squoChar)) :
    ValidateSingleField treg vreg value input = none := by
  have hparse : parseSingleFieldValidatorAndTransformerSpec input = none := by
    rcases h with ⟨p, hp, hq⟩ | ⟨q, hq2, hnq⟩
    · exact parseSpec_val_unclosed input p hp hq
    · cases hval : strIndexNat input validatorsMarker with
      | none =>
        unfold parseSingleFieldValidatorAndTransformerSpec
        simp only [strIndex, hval]
        rw [if_neg (not_not_intro rfl)]
        exact parseSpecTransPart_unclosed input "" q hq2 hnq
      | some p =>
        by_cases hquote : ∀ c ∈ input.data.drop (p + 12), c ≠ squoChar
        · exact parseSpec_val_unclosed input p hval hquote
        · push_neg at hquote
          obtain ⟨c, hcmem, hceq⟩ := hquote
          obtain ⟨idx, hidx⟩ := strIndexNat_single_isSome (goDropStr input (p + 12))
            squoChar (hceq ▸ hcmem)
          have hple : p + 12 ≤ input.data.length := by
            have hlen := strIndexNat_le input validatorsMarker p hval
            have hm : validatorsMarker.data.length = 12 := by decide
            omega
          have hidxle : idx + 1 ≤ input.data.length - (p + 12) := by
            have hlen := strIndexNat_le (goDropStr input (p + 12)) squo idx hidx
            have hm1 : squo.data.length = 1 := rfl
            have hm2 : (goDropStr input (p + 12)).data.length =
                input.data.length - (p + 12) := by
              simp [goDropStr]
            omega
          have h12 : (((p : Int)) + 12).toNat = p + 12 := by omega
          unfold parseSingleFieldValidatorAndTransformerSpec
          simp only [strIndex, hval]
          rw [if_pos (by omega : ¬((p : Int) = -1))]
          rw [h12]
          have hidx2 : strIndexNat (goDropStr input (p + 12)) squo = some idx := hidx
          rw [hidx2]
          dsimp only
          rw [if_pos (by omega : ¬((idx : Int) + p + 11 = -1))]
          unfold goSliceStr
          rw [if_pos (by refine ⟨by omega, by omega, by omega⟩)]
          exact parseSpecTransPart_unclosed input _ q hq2 hnq
  simp [ValidateSingleField, hparse]

/-- Witness for C9: a spec string whose validators marker is never closed
makes `ValidateSingleField` panic. -/
theorem C9_unclosed_marker_panics_witness :
    ValidateSingleField [] [] (.str "x") ("validators:" ++ squo ++ "required") = none :=
  C9_unclosed_marker_panics [] [] (.str "x") ("validators:" ++ squo ++ "required")
    (Or.inl ⟨0, by decide, by decide⟩)
